import Mathlib

/-!
# Verification of the request lifecycle and streaming protocol of
# react-native-llm-mediapipe

Shallow embedding of the repository's core components:

* the image normalizer (`processImage` in
  `android/src/main/java/com/llmmediapipe/LlmInferenceModel.kt`, identical in the
  `setResultListener` variant of the same class);
* the inference session wrapper's streaming accumulation and single-flight
  supersession (`generateResponseWithImageAsync` in both Kotlin variants);
* the handle-keyed model registry (`LlmInferenceModule` on Android and iOS);
* the TypeScript client binding (`src/llmInference.ts`).

Machine integers are modelled as `Nat` (handles, request ids and dimensions are
non-negative and far from any overflow boundary in this code).  The one Float
computation (`scaleFactor` in `processImage`) is embedded exactly: IEEE-754
binary32 round-to-nearest-even is simulated over the rationals (`fl32`), so the
embedded `scaled32` reproduces the Kotlin float results bit for bit on the
normal range the code exercises.
-/

namespace RnLlm

/-! ## Image normalizer

From `LlmInferenceModel.kt`, `processImage` (lines 218-257).  A bitmap is
modelled by its pixel dimensions; the pixel content is opaque to the resizing
and cropping geometry that the code computes. -/

/-- Pixel dimensions of a decoded bitmap. -/
structure Dims where
  width : Nat
  height : Nat
deriving DecidableEq, Repr

/-- `val targetSize = 256` (LlmInferenceModel.kt line 219). -/
def targetSize : Nat := 256

/-- A non-negative binary32 value, as an integer significand times a power of
two: `m * 2 ^ e`.  (Rounding keeps the significand at 24 bits; the value, not
the representation, is what the arithmetic below consumes.) -/
structure F32 where
  m : Nat
  e : Int
deriving DecidableEq, Repr

/-- The value of a binary32 datum as an exact fraction
(numerator, denominator). -/
def fracOfF32 (x : F32) : Nat × Nat :=
  if 0 ≤ x.e then (x.m * 2 ^ x.e.toNat, 1) else (x.m, 2 ^ (-x.e).toNat)

/-- Floor of the base-2 logarithm of a positive natural number, by structural
fuel recursion (so that it reduces inside the kernel). -/
def natLog2Aux : Nat → Nat → Nat
  | 0, _ => 0
  | fuel + 1, n => if n < 2 then 0 else natLog2Aux fuel (n / 2) + 1

def natLog2 (n : Nat) : Nat := natLog2Aux n n

/-- Floor of the base-2 logarithm of the positive rational `n / d`. -/
def fracLog2Floor (n d : Nat) : Int :=
  let e0 : Int := (natLog2 n : Int) - (natLog2 d : Int)
  let lt : Bool := if 0 ≤ e0 then n < d * 2 ^ e0.toNat else n * 2 ^ (-e0).toNat < d
  if lt then e0 - 1 else e0

/-- `N / D` rounded to the nearest integer, ties to even. -/
def divRoundEven (N D : Nat) : Nat :=
  let q := N / D
  let r := N % D
  if 2 * r < D then q
  else if D < 2 * r then q + 1
  else if q % 2 = 0 then q else q + 1

/-- IEEE-754 binary32 rounding (round to nearest, ties to even) of the
positive rational `n / d`: the significand is rounded to 24 bits at the
value's own binade.  Valid on the binary32 normal range, which covers every
value the embedded code produces (scale factors in `[2^-16, 1]`, scaled sizes
below `2^24`); subnormals and overflow never arise there. -/
def fl32 (n d : Nat) : F32 :=
  let E := fracLog2Floor n d
  let p : Int := 23 - E
  if 0 ≤ p then ⟨divRoundEven (n * 2 ^ p.toNat) d, E - 23⟩
  else ⟨divRoundEven n (d * 2 ^ (-p).toNat), E - 23⟩

/-- Kotlin `Int` to `Float` conversion (`toFloat()` and the implicit promotion
in mixed arithmetic): round to nearest binary32; exact below `2^24`. -/
def fl32OfNat (w : Nat) : F32 := fl32 w 1

/-- IEEE binary32 division: the exact quotient of the operand values,
correctly rounded. -/
def f32Div (a b : F32) : F32 :=
  fl32 ((fracOfF32 a).1 * (fracOfF32 b).2) ((fracOfF32 a).2 * (fracOfF32 b).1)

/-- IEEE binary32 multiplication: the exact product of the operand values,
correctly rounded. -/
def f32Mul (a b : F32) : F32 :=
  fl32 ((fracOfF32 a).1 * (fracOfF32 b).1) ((fracOfF32 a).2 * (fracOfF32 b).2)

/-- Kotlin `Float.toInt()`: truncation toward zero; on the non-negative values
here this is the floor. -/
def f32TruncToNat (x : F32) : Nat :=
  if 0 ≤ x.e then x.m * 2 ^ x.e.toNat else x.m / 2 ^ (-x.e).toNat

/-- A scaled dimension as computed in step 1 of `processImage` (lines
230-234) in binary32 arithmetic:
`scaleFactor = targetSize.toFloat() / min(originalWidth, originalHeight)` is
the correctly rounded float quotient of the two promoted operands, and
`(originalWidth * scaleFactor).toInt()` rounds the float product and truncates
toward zero. -/
def scaled32 (w s : Nat) : Nat :=
  let scaleFactor := f32Div (fl32OfNat targetSize) (fl32OfNat s)
  f32TruncToNat (f32Mul (fl32OfNat w) scaleFactor)

/-- Outcome of `processImage`: the original bitmap returned unchanged (lines
223-227); the scaled bitmap center-cropped, recorded as the scaled dimensions
with the crop offsets (lines 240-244); or the crop throwing, rethrown by the
catch at lines 254-256 as "Image processing failed" and ultimately rejecting
the request with INFERENCE_ERROR. -/
inductive ProcessResult where
  | passThrough (d : Dims)
  | scaledCropped (scaled : Dims) (cropX cropY : Nat)
  | processingFailed
deriving DecidableEq, Repr

/-- `processImage` (LlmInferenceModel.kt lines 218-257): skip processing when
either dimension is below `targetSize`; otherwise scale both dimensions by the
binary32 factor and crop at `cropX = (scaledWidth - targetSize) / 2`,
`cropY = (scaledHeight - targetSize) / 2`.
`Bitmap.createBitmap(scaledBitmap, cropX, cropY, 256, 256)` succeeds exactly
when the crop rectangle lies inside the scaled bitmap: for a scaled dimension
at least 256 the offset satisfies `0 ≤ cropX` and `cropX + 256 ≤ scaledWidth`,
while for a scaled dimension of 255 the Kotlin offset is `(255 - 256) / 2 = 0`
and `0 + 256 > 255`, and below 255 the offset is negative -- either way
createBitmap throws and the catch rethrows. -/
def processImage (d : Dims) : ProcessResult :=
  if d.width < targetSize || d.height < targetSize then
    .passThrough d
  else if targetSize ≤ scaled32 d.width (min d.width d.height) &&
      targetSize ≤ scaled32 d.height (min d.width d.height) then
    .scaledCropped
      ⟨scaled32 d.width (min d.width d.height), scaled32 d.height (min d.width d.height)⟩
      ((scaled32 d.width (min d.width d.height) - targetSize) / 2)
      ((scaled32 d.height (min d.width d.height) - targetSize) / 2)
  else
    .processingFailed

/-- C6 counterexample.  A 282x282 input: both dimensions are at least 256, yet
in binary32 `256f / 282` rounds to slightly above `256/282` and
`282 * scaleFactor` rounds to just below 256, so `.toInt()` truncation yields a
255x255 scaled bitmap -- the smaller scaled dimension is not exactly 256 --
and the 256x256 center crop then throws, failing the request instead of
producing a tile.  The claim as stated is false at this input. -/
theorem image_normalization_claim_counterexample :
    scaled32 282 282 = 255 ∧
    processImage ⟨282, 282⟩ = .processingFailed := by
  exact ⟨by decide, by decide⟩

/-- C6 (amended).  For every decoded input image: if either dimension is less
than 256 the image passes through unchanged.  If both dimensions are at least
256, each dimension is downscaled by the binary32 factor `256f / min(w, h)`
with truncation toward zero; when both scaled dimensions come out at least 256
the 256x256 center crop is taken at offset `(scaled_dim - 256) / 2` per axis --
a 1000x500 input scales to 512x256 and crops at offset (128, 0), and a 256x256
input scales to 256x256 and crops at (0, 0) -- but binary32 rounding can leave
the smaller scaled dimension at 255 (for example 282x282 scales to 255x255),
in which case the crop throws and the request fails instead. -/
theorem image_normalization_float (w h : Nat) :
    (w < targetSize ∨ h < targetSize → processImage ⟨w, h⟩ = .passThrough ⟨w, h⟩) ∧
    (targetSize ≤ w → targetSize ≤ h →
      targetSize ≤ scaled32 w (min w h) → targetSize ≤ scaled32 h (min w h) →
      processImage ⟨w, h⟩ =
        .scaledCropped ⟨scaled32 w (min w h), scaled32 h (min w h)⟩
          ((scaled32 w (min w h) - targetSize) / 2)
          ((scaled32 h (min w h) - targetSize) / 2)) ∧
    (targetSize ≤ w → targetSize ≤ h →
      scaled32 w (min w h) < targetSize ∨ scaled32 h (min w h) < targetSize →
      processImage ⟨w, h⟩ = .processingFailed) ∧
    processImage ⟨1000, 500⟩ = .scaledCropped ⟨512, 256⟩ 128 0 ∧
    processImage ⟨256, 256⟩ = .scaledCropped ⟨256, 256⟩ 0 0 ∧
    processImage ⟨100, 100⟩ = .passThrough ⟨100, 100⟩ := by
  refine ⟨fun hlt => ?_, fun hw hh hsw hsh => ?_, fun hw hh hbad => ?_,
          by decide, by decide, by decide⟩
  · rcases hlt with hlt | hlt <;> simp [processImage, hlt]
  · simp [processImage, Nat.not_lt.mpr hw, Nat.not_lt.mpr hh, hsw, hsh]
  · rcases hbad with hbad | hbad <;>
      simp [processImage, Nat.not_lt.mpr hw, Nat.not_lt.mpr hh, Nat.not_le.mpr hbad]

/-- Witness for `image_normalization_float`: the 1000x500 instance goes
through the scale-and-crop branch, 282x282 through the failing branch, and
100x100 through the pass-through branch. -/
theorem image_normalization_float_witness :
    processImage ⟨1000, 500⟩ =
      .scaledCropped ⟨scaled32 1000 (min 1000 500), scaled32 500 (min 1000 500)⟩
        ((scaled32 1000 (min 1000 500) - targetSize) / 2)
        ((scaled32 500 (min 1000 500) - targetSize) / 2) ∧
    processImage ⟨282, 282⟩ = .processingFailed ∧
    processImage ⟨100, 100⟩ = .passThrough ⟨100, 100⟩ :=
  ⟨(image_normalization_float 1000 500).2.1 (by decide) (by decide)
      (by decide) (by decide),
   (image_normalization_float 282 282).2.2.1 (by decide) (by decide)
      (Or.inl (by decide)),
   (image_normalization_float 100 100).1 (Or.inl (by decide))⟩

/-! ## Streaming partial-response emission

The repository holds two Android variants of `LlmInferenceModel.kt`.

* The `ProgressListener` variant (`android/src/main/java/.../LlmInferenceModel.kt`
  lines 140-149) runs, per engine fragment,
  `requestResult += partialResult; inferenceListener?.onResults(this, requestId, requestResult)`:
  accumulate first, then emit the accumulation.
* The `setResultListener` variant (`unnamed/part_003` lines 87-95) runs
  `inferenceListener?.onResults(this, requestId, partialResult); requestResult += partialResult`:
  emit the raw fragment itself, then accumulate.

Both are embedded as recursions over the list of fragments the engine streams,
threading the `requestResult` field exactly as the source does; the result is
the list of `response` payloads handed to the listener (which the module
forwards verbatim as `onPartialResponse` events). -/

/-- Emissions of the `ProgressListener` variant from a given `requestResult`
value: each fragment is appended to the accumulator and the new accumulator is
emitted. -/
def progressEmitsFrom (requestResult : String) : List String → List String
  | [] => []
  | fragment :: rest =>
    (requestResult ++ fragment) :: progressEmitsFrom (requestResult ++ fragment) rest

/-- Emissions over a whole request; `requestResult` starts at `""`
(`this.requestResult = ""`, line 86 of the named variant). -/
def progressEmits (fragments : List String) : List String :=
  progressEmitsFrom "" fragments

/-- Emissions of the `setResultListener` variant (`unnamed/part_003` lines
87-95) from a given `requestResult` value: the raw fragment is emitted before
the accumulator is updated. -/
def resultListenerEmitsFrom (requestResult : String) : List String → List String
  | [] => []
  | fragment :: rest =>
    fragment :: resultListenerEmitsFrom (requestResult ++ fragment) rest

/-- Emissions over a whole request in the `setResultListener` variant. -/
def resultListenerEmits (fragments : List String) : List String :=
  resultListenerEmitsFrom "" fragments

/-- Concatenation of a list of fragments, in order. -/
def concatList : List String → String
  | [] => ""
  | s :: rest => s ++ concatList rest

/-- `t` extends `s` by some (possibly empty) suffix. -/
def PrefixExtension (s t : String) : Prop := ∃ u, t = s ++ u

theorem string_append_assoc (a b c : String) : a ++ b ++ c = a ++ (b ++ c) := by
  apply String.ext
  simp only [String.data_append, List.append_assoc]

theorem string_append_empty (a : String) : a ++ "" = a := by
  apply String.ext
  simp [String.data_append]

theorem progressEmitsFrom_get (fs : List String) :
    ∀ (acc : String) (i : Nat), i < fs.length →
      (progressEmitsFrom acc fs).get? i = some (acc ++ concatList (fs.take (i + 1))) := by
  induction fs with
  | nil => intro acc i hi; simp at hi
  | cons f rest ih =>
    intro acc i hi
    cases i with
    | zero =>
      simp only [progressEmitsFrom, List.get?, List.take, concatList]
      rw [string_append_empty]
    | succ j =>
      have hj : j < rest.length := Nat.lt_of_succ_lt_succ hi
      simp only [progressEmitsFrom, List.get?, List.take, concatList]
      rw [ih (acc ++ f) j hj, string_append_assoc]

theorem progressEmitsFrom_chain (fs : List String) :
    ∀ acc : String, List.Chain' PrefixExtension (progressEmitsFrom acc fs) := by
  induction fs with
  | nil => intro acc; exact List.chain'_nil
  | cons f rest ih =>
    intro acc
    cases rest with
    | nil => exact List.chain'_singleton _
    | cons g rest' =>
      have hstep : PrefixExtension (acc ++ f) (acc ++ f ++ g) := ⟨g, rfl⟩
      exact (List.chain'_cons).mpr ⟨hstep, ih (acc ++ f)⟩

theorem string_empty_append (a : String) : "" ++ a = a := by
  apply String.ext
  simp [String.data_append]

theorem resultListenerEmitsFrom_eq (fs : List String) :
    ∀ acc : String, resultListenerEmitsFrom acc fs = fs := by
  induction fs with
  | nil => intro acc; rfl
  | cons f rest ih =>
    intro acc
    simp only [resultListenerEmitsFrom, ih]

/-- C1 counterexample.  In the `setResultListener` variant of
`LlmInferenceModel.kt` (`unnamed/part_003` lines 87-95), with the engine
streaming fragments "Hi" then " there", the second `onPartialResponse` payload
is the raw fragment " there": it is not the accumulated text "Hi there", and it
is not a prefix-extension of the previous payload "Hi".  The claim as stated is
false on this variant. -/
theorem partial_response_claim_counterexample :
    resultListenerEmits ["Hi", " there"] = ["Hi", " there"] ∧
    (resultListenerEmits ["Hi", " there"]).get? 1 = some " there" ∧
    " there" ≠ concatList ["Hi", " there"] ∧
    ¬ PrefixExtension "Hi" " there" := by
  refine ⟨rfl, rfl, by decide, ?_⟩
  rintro ⟨u, hu⟩
  have hdata := congrArg String.data hu
  rw [String.data_append] at hdata
  have h3 := congrArg List.head? hdata
  have h4 : some ' ' = some 'H' := h3
  exact absurd (Option.some.inj h4) (by decide)

/-- C1 (amended).  In the `ProgressListener` Android variant (and likewise the
iOS variants, which accumulate before emitting), every `onPartialResponse`
event carries the entire accumulated response so far -- the i-th emission for a
request equals the concatenation of the first i+1 engine fragments -- and each
successive emission for the same request is a prefix-extension of the previous
one.  In the `setResultListener` variant (`unnamed/part_003`) each event
instead carries only the raw incremental fragment. -/
theorem partial_response_accumulation (fragments : List String) :
    (∀ i, i < fragments.length →
      (progressEmits fragments).get? i = some (concatList (fragments.take (i + 1)))) ∧
    List.Chain' PrefixExtension (progressEmits fragments) ∧
    resultListenerEmits fragments = fragments := by
  refine ⟨fun i hi => ?_, progressEmitsFrom_chain fragments "", resultListenerEmitsFrom_eq fragments ""⟩
  have h := progressEmitsFrom_get fragments "" i hi
  rwa [string_empty_append] at h

/-- Witness for `partial_response_accumulation`: the end-to-end scenario of the
spec, fragments "Hi", " there", "!", whose emissions are "Hi", "Hi there",
"Hi there!". -/
theorem partial_response_accumulation_witness :
    (progressEmits ["Hi", " there", "!"]).get? 2 =
      some (concatList (["Hi", " there", "!"].take 3)) ∧
    List.Chain' PrefixExtension (progressEmits ["Hi", " there", "!"]) ∧
    progressEmits ["Hi", " there", "!"] = ["Hi", "Hi there", "Hi there!"] :=
  ⟨(partial_response_accumulation ["Hi", " there", "!"]).1 2 (by decide),
   (partial_response_accumulation ["Hi", " there", "!"]).2.1,
   rfl⟩

/-! ## Session wrapper: single-flight supersession

From `generateResponseWithImageAsync` in `unnamed/part_003` (lines 61-122; the
`ProgressListener` variant has the same field discipline).  The wrapper holds
mutable fields `currentSession`, `requestId`, `requestResult` and
`requestPromise`; a generate call overwrites all four and closes any previous
session before opening a new one, and every terminal resolution or rejection
goes through the `requestPromise` field as it stands at that moment.  Sessions
and promises are identified by numeric ids; engine callbacks are modelled as
explicit operations interleaved with generate calls, each step emitting the
primitive actions the code performs. -/

/-- The wrapper's mutable fields (part_003 lines 29-38). -/
structure WrapperState where
  currentSession : Option Nat
  requestId : Nat
  requestResult : String
  requestPromise : Option Nat
  nextSessionId : Nat
deriving DecidableEq, Repr

/-- Primitive observable actions of the wrapper. -/
inductive WAction where
  | closeSession (sid : Nat)
  | openSession (sid : Nat)
  | emitResponse (reqId : Nat) (response : String)
  | resolvePromise (pid : Nat) (result : String)
  | rejectPromise (pid : Nat) (msg : String)
deriving DecidableEq, Repr

/-- `generateResponseWithImageAsync` entry (part_003 lines 61-84): store the
request id, clear `requestResult`, store the new promise, close any previous
session (`currentSession?.close()`), then create a fresh session. -/
def wGenerate (st : WrapperState) (reqId pid : Nat) : WrapperState × List WAction :=
  let closes := match st.currentSession with
    | some sid => [WAction.closeSession sid]
    | none => []
  let sid := st.nextSessionId
  ({ currentSession := some sid, requestId := reqId, requestResult := "",
     requestPromise := some pid, nextSessionId := sid + 1 },
   closes ++ [WAction.openSession sid])

/-- One engine result callback (part_003 lines 87-95): emit the fragment, append
it to `requestResult`; when `done`, resolve whatever promise the
`requestPromise` field holds at that moment and close the session. -/
def wFragment (st : WrapperState) (text : String) (dn : Bool) : WrapperState × List WAction :=
  let st1 := { st with requestResult := st.requestResult ++ text }
  let emit := [WAction.emitResponse st.requestId text]
  if dn then
    let resolves := match st1.requestPromise with
      | some pid => [WAction.resolvePromise pid st1.requestResult]
      | none => []
    let closes := match st1.currentSession with
      | some sid => [WAction.closeSession sid]
      | none => []
    ({ st1 with currentSession := none }, emit ++ resolves ++ closes)
  else (st1, emit)

/-- The engine error callback (part_003 lines 97-102): reject whatever promise
the `requestPromise` field holds at that moment and close the session. -/
def wEngineError (st : WrapperState) (msg : String) : WrapperState × List WAction :=
  let rejects := match st.requestPromise with
    | some pid => [WAction.rejectPromise pid msg]
    | none => []
  let closes := match st.currentSession with
    | some sid => [WAction.closeSession sid]
    | none => []
  ({ st with currentSession := none }, rejects ++ closes)

/-- Operations that can act on one wrapper, interleaving caller generate calls
with engine callbacks. -/
inductive WOp where
  | generate (reqId pid : Nat)
  | fragment (text : String) (dn : Bool)
  | engineError (msg : String)
deriving DecidableEq, Repr

def wStep (st : WrapperState) : WOp → WrapperState × List WAction
  | .generate reqId pid => wGenerate st reqId pid
  | .fragment text dn => wFragment st text dn
  | .engineError msg => wEngineError st msg

/-- Run a list of operations, collecting all emitted actions in order. -/
def wRun (st : WrapperState) : List WOp → WrapperState × List WAction
  | [] => (st, [])
  | op :: rest =>
    ((wRun (wStep st op).1 rest).1, (wStep st op).2 ++ (wRun (wStep st op).1 rest).2)

/-- Promise ids introduced by the generate calls of an operation list. -/
def generatePids : List WOp → List Nat
  | [] => []
  | .generate _ pid :: rest => pid :: generatePids rest
  | _ :: rest => generatePids rest

theorem wStep_requestPromise_ne (st : WrapperState) (op : WOp) (pA : Nat)
    (hst : st.requestPromise ≠ some pA)
    (hop : ∀ r p, op = WOp.generate r p → p ≠ pA) :
    (wStep st op).1.requestPromise ≠ some pA := by
  cases op with
  | generate r p =>
    have hp := hop r p rfl
    simp only [wStep, wGenerate]
    intro h
    exact hp (Option.some.inj h)
  | fragment text dn =>
    simp only [wStep, wFragment]
    by_cases hdn : dn = true
    · simp [hdn]; exact fun h => hst (by simp [h])
    · simp at hdn; simp [hdn]; exact fun h => hst (by simp [h])
  | engineError msg =>
    simpa only [wStep, wEngineError] using hst

theorem wStep_no_resolve (st : WrapperState) (op : WOp) (pA : Nat)
    (hst : st.requestPromise ≠ some pA) :
    (∀ res, WAction.resolvePromise pA res ∉ (wStep st op).2) ∧
    (∀ msg, WAction.rejectPromise pA msg ∉ (wStep st op).2) := by
  cases op with
  | generate r p =>
    cases hcs : st.currentSession with
    | none => simp [wStep, wGenerate, hcs]
    | some sid => simp [wStep, wGenerate, hcs]
  | fragment text dn =>
    cases dn with
    | false => simp [wStep, wFragment]
    | true =>
      cases hrp : st.requestPromise with
      | none =>
        cases hcs : st.currentSession with
        | none => simp [wStep, wFragment, hrp, hcs]
        | some sid => simp [wStep, wFragment, hrp, hcs]
      | some pid =>
        have hne : pA ≠ pid := fun h => hst (by rw [hrp, h])
        cases hcs : st.currentSession with
        | none => simp [wStep, wFragment, hrp, hcs, hne]
        | some sid => simp [wStep, wFragment, hrp, hcs, hne]
  | engineError msg =>
    cases hrp : st.requestPromise with
    | none =>
      cases hcs : st.currentSession with
      | none => simp [wStep, wEngineError, hrp, hcs]
      | some sid => simp [wStep, wEngineError, hrp, hcs]
    | some pid =>
      have hne : pA ≠ pid := fun h => hst (by rw [hrp, h])
      cases hcs : st.currentSession with
      | none => simp [wStep, wEngineError, hrp, hcs, hne]
      | some sid => simp [wStep, wEngineError, hrp, hcs, hne]

theorem wRun_no_resolve (ops : List WOp) :
    ∀ (st : WrapperState) (pA : Nat),
      st.requestPromise ≠ some pA →
      (∀ r p, WOp.generate r p ∈ ops → p ≠ pA) →
      (∀ res, WAction.resolvePromise pA res ∉ (wRun st ops).2) ∧
      (∀ msg, WAction.rejectPromise pA msg ∉ (wRun st ops).2) := by
  induction ops with
  | nil => intro st pA _ _; simp [wRun]
  | cons op rest ih =>
    intro st pA hst hops
    have hop : ∀ r p, op = WOp.generate r p → p ≠ pA := by
      intro r p h
      exact hops r p (by rw [h]; exact List.mem_cons_self _ _)
    have hst1 := wStep_requestPromise_ne st op pA hst hop
    have hrest : ∀ r p, WOp.generate r p ∈ rest → p ≠ pA :=
      fun r p hm => hops r p (List.mem_cons_of_mem _ hm)
    have h1 := wStep_no_resolve st op pA hst
    have h2 := ih (wStep st op).1 pA hst1 hrest
    constructor
    · intro res hmem
      simp only [wRun, List.mem_append] at hmem
      rcases hmem with hm | hm
      · exact h1.1 res hm
      · exact h2.1 res hm
    · intro msg hmem
      simp only [wRun, List.mem_append] at hmem
      rcases hmem with hm | hm
      · exact h1.2 msg hm
      · exact h2.2 msg hm

/-- C2.  At most one generation session is active per model wrapper: the state
carries a single optional `currentSession`, every generate call closes a
leftover session before opening the new one, and once a second generate call
has replaced the `requestPromise` field, no later engine callback can resolve
or reject the superseded request's promise (resolution always dereferences the
current field), so the superseded request never resolves. -/
theorem single_flight_supersession :
    (∀ (st : WrapperState) (reqId pid sid : Nat),
      st.currentSession = some sid →
      (wGenerate st reqId pid).2 =
        [WAction.closeSession sid, WAction.openSession st.nextSessionId]) ∧
    (∀ (st : WrapperState) (reqId pid : Nat),
      st.currentSession = none →
      (wGenerate st reqId pid).2 = [WAction.openSession st.nextSessionId]) ∧
    (∀ (st : WrapperState) (rB pB pA : Nat) (ops : List WOp),
      pB ≠ pA →
      (∀ r p, WOp.generate r p ∈ ops → p ≠ pA) →
      (∀ res, WAction.resolvePromise pA res ∉ (wRun (wGenerate st rB pB).1 ops).2) ∧
      (∀ msg, WAction.rejectPromise pA msg ∉ (wRun (wGenerate st rB pB).1 ops).2)) := by
  refine ⟨fun st reqId pid sid hcs => by simp [wGenerate, hcs],
          fun st reqId pid hcs => by simp [wGenerate, hcs],
          fun st rB pB pA ops hne hops => ?_⟩
  have hstB : (wGenerate st rB pB).1.requestPromise ≠ some pA := by
    simp only [wGenerate]
    intro h
    exact hne (Option.some.inj h)
  exact wRun_no_resolve ops (wGenerate st rB pB).1 pA hstB hops

/-- Witness for `single_flight_supersession`: request A (promise 0) holds
session 0; request B (promise 1) first closes session 0, then opens session 1;
when the engine then completes, promise 1 is resolved and promise 0 is never
resolved nor rejected. -/
theorem single_flight_supersession_witness :
    (wGenerate ⟨some 0, 0, "", some 0, 1⟩ 1 1).2 =
      [WAction.closeSession 0, WAction.openSession 1] ∧
    WAction.resolvePromise 0 "done" ∉
      (wRun (wGenerate ⟨some 0, 0, "", some 0, 1⟩ 1 1).1 [WOp.fragment "done" true]).2 ∧
    WAction.rejectPromise 0 "err" ∉
      (wRun (wGenerate ⟨some 0, 0, "", some 0, 1⟩ 1 1).1 [WOp.fragment "done" true]).2 ∧
    WAction.resolvePromise 1 "done" ∈
      (wRun (wGenerate ⟨some 0, 0, "", some 0, 1⟩ 1 1).1 [WOp.fragment "done" true]).2 :=
  ⟨single_flight_supersession.1 ⟨some 0, 0, "", some 0, 1⟩ 1 1 0 rfl,
   (single_flight_supersession.2.2 ⟨some 0, 0, "", some 0, 1⟩ 1 1 0 [WOp.fragment "done" true]
      (by decide) (by intro r p h; simp at h)).1 "done",
   (single_flight_supersession.2.2 ⟨some 0, 0, "", some 0, 1⟩ 1 1 0 [WOp.fragment "done" true]
      (by decide) (by intro r p h; simp at h)).2 "err",
   by decide⟩

/-! ## Vision gating in generateResponseWithImage

Two materially different behaviours exist in the repository.

* MediaPipe variants (`android/.../LlmInferenceModel.kt` lines 84-188, mirrored
  by `ios/LlmInferenceModel.swift` lines 111-193 and `unnamed/part_003`): the
  image-attach step is guarded by `imageBase64 != null && enableVisionModality`,
  so an image supplied to a non-vision model is silently skipped and generation
  starts anyway; no VisionNotEnabled error exists in these files.
* MLX variant (`unnamed/part_005`, `generateResponseWithImage`): a guard chain
  rejects with VISION_NOT_ENABLED before any session work when an image is
  supplied and vision is disabled.

The MediaPipe setup is embedded as the sequence of primitive calls it performs,
with external effects (session creation, image decoding) abstracted by success
flags. -/

/-- Primitive setup calls of `generateResponseWithImageAsync`. -/
inductive SetupAction where
  | closePreviousSession
  | createSession
  | addQueryChunk (prompt : String)
  | addImage
  | startGeneration
deriving DecidableEq, Repr

/-- Setup control flow of the Android MediaPipe
`generateResponseWithImageAsync` (LlmInferenceModel.kt lines 84-188):
close any previous session, create a session (failure rejects with
INFERENCE_ERROR), add the prompt, add the image only when one is supplied AND
`enableVisionModality` is set (line 128; a decode failure inside that branch
rejects with INFERENCE_ERROR), then start streaming generation.  The second
component is the promise rejection code, `none` when setup succeeds. -/
def androidGenerateSetup (enableVisionModality : Bool) (prompt : String)
    (imageBase64 : Option String) (hasPrevSession sessionOk decodeOk : Bool) :
    List SetupAction × Option String :=
  let closes := if hasPrevSession then [SetupAction.closePreviousSession] else []
  if !sessionOk then (closes, some "INFERENCE_ERROR")
  else
    let acts := closes ++ [SetupAction.createSession, SetupAction.addQueryChunk prompt]
    match imageBase64 with
    | some _ =>
      if enableVisionModality then
        if decodeOk then (acts ++ [SetupAction.addImage, SetupAction.startGeneration], none)
        else (acts, some "INFERENCE_ERROR")
      else (acts ++ [SetupAction.startGeneration], none)
    | none => (acts ++ [SetupAction.startGeneration], none)

/-- Outcome of the MLX variant's guard chain. -/
inductive MlxOutcome where
  | rejected (code : String)
  | generationStarted
deriving DecidableEq, Repr

/-- Guard chain at the top of `generateResponseWithImage` in the MLX iOS
variant (`unnamed/part_005`): MODEL_NOT_LOADED, then VISION_NOT_ENABLED when an
image is supplied and vision is off, then VISION_NOT_IMPLEMENTED for any image,
else generation starts. -/
def mlxGenerate (modelLoaded enableVisionModality : Bool) (imageBase64 : Option String) :
    MlxOutcome :=
  if !modelLoaded then .rejected "MODEL_NOT_LOADED"
  else if imageBase64.isSome && !enableVisionModality then .rejected "VISION_NOT_ENABLED"
  else if imageBase64.isSome then .rejected "VISION_NOT_IMPLEMENTED"
  else .generationStarted

/-- C3 counterexample.  On the Android MediaPipe variant, a
`generateResponseWithImage` call with an image and `enableVisionModality =
false` does not fail at all: the setup completes with no rejection, the image
is never attached, and generation is started -- the request reaches the
inference engine.  (Even an undecodable image cannot fail here: the decode is
never attempted.)  The claim as stated is false on this variant. -/
theorem vision_not_enabled_counterexample :
    androidGenerateSetup false "describe" (some "img") false true false =
      ([SetupAction.createSession, SetupAction.addQueryChunk "describe",
        SetupAction.startGeneration], none) ∧
    SetupAction.startGeneration ∈
      (androidGenerateSetup false "describe" (some "img") false true false).1 ∧
    SetupAction.addImage ∉
      (androidGenerateSetup false "describe" (some "img") false true false).1 := by
  refine ⟨rfl, ?_, ?_⟩ <;> decide

/-- C3 (amended).  On the MediaPipe variants (Android and iOS), a
`generateResponseWithImage` call with an image and `enableVisionModality =
false` silently ignores the image: no failure is reported, the image is never
decoded or attached, and the request proceeds to the engine as text-only.
Only the MLX iOS variant (`unnamed/part_005`) fails such a call with
VISION_NOT_ENABLED before the request reaches the engine. -/
theorem vision_not_enabled_gating (prompt img : String)
    (hasPrevSession decodeOk : Bool) :
    (androidGenerateSetup false prompt (some img) hasPrevSession true decodeOk).2 = none ∧
    SetupAction.startGeneration ∈
      (androidGenerateSetup false prompt (some img) hasPrevSession true decodeOk).1 ∧
    SetupAction.addImage ∉
      (androidGenerateSetup false prompt (some img) hasPrevSession true decodeOk).1 ∧
    mlxGenerate true false (some img) = .rejected "VISION_NOT_ENABLED" := by
  cases hasPrevSession <;>
    exact ⟨rfl, by simp [androidGenerateSetup], by simp [androidGenerateSetup], rfl⟩

/-! ## Model registry

From `LlmInferenceModule` on Android (`unnamed/part_002`) and iOS
(`ios/LlmInferenceModule.swift`).  The registry state is the `nextHandle`
counter plus the set of handles in `modelMap` (the wrapper objects themselves
are opaque; only key membership matters to the claims).  Model construction and
asset resolution are external effects abstracted by success flags. -/

/-- `nextHandle` counter and the keys of `modelMap`. -/
structure RegistryState where
  nextHandle : Nat
  modelMap : List Nat
deriving DecidableEq, Repr

/-- Result of one registry operation's promise. -/
inductive RegResult where
  | resolvedHandle (h : Nat)
  | resolvedBool (b : Bool)
  | rejected (code : String)
deriving DecidableEq, Repr

namespace AndroidModule

/-- `createModel` (part_002 lines 62-92): `val modelHandle = nextHandle++`
runs before the wrapper constructor, so the counter is incremented even when
construction throws; on success the handle is stored and resolved, on failure
the promise is rejected with code "Model Creation Failed". -/
def createModel (st : RegistryState) (ctorOk : Bool) : RegistryState × RegResult :=
  let modelHandle := st.nextHandle
  if ctorOk then
    (⟨st.nextHandle + 1, modelHandle :: st.modelMap⟩, .resolvedHandle modelHandle)
  else
    (⟨st.nextHandle + 1, st.modelMap⟩, .rejected "Model Creation Failed")

/-- `copyFileToInternalStorageIfNeeded` (part_002 lines 197-219): succeeds when
a materialized copy already exists, otherwise succeeds exactly when the asset
name is present in the bundle (else it throws IllegalArgumentException). -/
def copyFileToInternalStorageIfNeeded (alreadyCopied assetInBundle : Bool) : Bool :=
  alreadyCopied || assetInBundle

/-- `createModelFromAsset` (part_002 lines 94-126): the copy step runs before
`nextHandle++`; when it throws, the catch at lines 123-125 rejects with the
same "Model Creation Failed" code used for construction failures and the
counter is untouched; otherwise the path continues exactly like `createModel`. -/
def createModelFromAsset (st : RegistryState) (alreadyCopied assetInBundle ctorOk : Bool) :
    RegistryState × RegResult :=
  if copyFileToInternalStorageIfNeeded alreadyCopied assetInBundle then
    createModel st ctorOk
  else
    (st, .rejected "Model Creation Failed")

/-- `releaseModel` (part_002 lines 128-135): when the handle is in the map,
close and remove the wrapper and resolve `true`; otherwise reject with
INVALID_HANDLE. -/
def releaseModel (st : RegistryState) (h : Nat) : RegistryState × RegResult :=
  if h ∈ st.modelMap then
    (⟨st.nextHandle, st.modelMap.erase h⟩, .resolvedBool true)
  else
    (st, .rejected "INVALID_HANDLE")

/-- The registry operations a caller can issue, with external effects as flags. -/
inductive RegOp where
  | createModel (ctorOk : Bool)
  | createModelFromAsset (alreadyCopied assetInBundle ctorOk : Bool)
  | releaseModel (h : Nat)
deriving DecidableEq, Repr

def regStep (st : RegistryState) : RegOp → RegistryState × RegResult
  | .createModel ctorOk => createModel st ctorOk
  | .createModelFromAsset a b c => createModelFromAsset st a b c
  | .releaseModel h => releaseModel st h

def regRun (st : RegistryState) : List RegOp → RegistryState
  | [] => st
  | op :: rest => regRun (regStep st op).1 rest

/-- A handle below the counter that is absent from the map can never re-enter
it: creates only insert the current counter value and the counter never
decreases. -/
def HandleRetired (h : Nat) (st : RegistryState) : Prop :=
  h ∉ st.modelMap ∧ h < st.nextHandle

theorem handleRetired_createModel (h : Nat) (st : RegistryState) (ok : Bool)
    (hr : HandleRetired h st) : HandleRetired h (createModel st ok).1 := by
  obtain ⟨hmem, hlt⟩ := hr
  cases ok with
  | false => exact ⟨hmem, Nat.lt_succ_of_lt hlt⟩
  | true =>
    refine ⟨?_, Nat.lt_succ_of_lt hlt⟩
    intro hmem'
    rcases List.mem_cons.mp hmem' with heq | hin
    · exact absurd heq (Nat.ne_of_lt hlt)
    · exact hmem hin

theorem handleRetired_step (h : Nat) (st : RegistryState) (op : RegOp)
    (hr : HandleRetired h st) : HandleRetired h (regStep st op).1 := by
  obtain ⟨hmem, hlt⟩ := hr
  cases op with
  | createModel ctorOk => exact handleRetired_createModel h st ctorOk ⟨hmem, hlt⟩
  | createModelFromAsset a b c =>
    by_cases hcopy : copyFileToInternalStorageIfNeeded a b = true
    · have heq : (regStep st (RegOp.createModelFromAsset a b c)).1 =
          (createModel st c).1 := by
        simp [regStep, createModelFromAsset, hcopy]
      rw [heq]
      exact handleRetired_createModel h st c ⟨hmem, hlt⟩
    · simp only [regStep, createModelFromAsset, hcopy, if_false]
      exact ⟨hmem, hlt⟩
  | releaseModel h' =>
    by_cases hin : h' ∈ st.modelMap
    · simp only [regStep, releaseModel, hin, if_pos]
      exact ⟨fun hmem' => hmem (List.mem_of_mem_erase hmem'), hlt⟩
    · simp only [regStep, releaseModel, hin, if_neg, not_false_iff]
      exact ⟨hmem, hlt⟩

theorem handleRetired_run (h : Nat) (ops : List RegOp) :
    ∀ st : RegistryState, HandleRetired h st → HandleRetired h (regRun st ops) := by
  induction ops with
  | nil => intro st hr; exact hr
  | cons op rest ih =>
    intro st hr
    exact ih (regStep st op).1 (handleRetired_step h st op hr)

/-- Reachable-state invariant of the module: map keys are distinct (it is a
`mutableMapOf`) and every key is below the counter.  Holds for the initial
state `⟨1, []⟩` and is preserved by every operation. -/
def RegInvariant (st : RegistryState) : Prop :=
  st.modelMap.Nodup ∧ ∀ x ∈ st.modelMap, x < st.nextHandle

theorem regInvariant_createModel (st : RegistryState) (ok : Bool)
    (hinv : RegInvariant st) : RegInvariant (createModel st ok).1 := by
  obtain ⟨hnd, hbd⟩ := hinv
  cases ok with
  | false => exact ⟨hnd, fun x hx => Nat.lt_succ_of_lt (hbd x hx)⟩
  | true =>
    refine ⟨List.nodup_cons.mpr ⟨fun hmem => ?_, hnd⟩, fun x hx => ?_⟩
    · exact absurd (hbd _ hmem) (Nat.lt_irrefl _)
    · rcases List.mem_cons.mp hx with heq | hin
      · exact heq ▸ Nat.lt_succ_self _
      · exact Nat.lt_succ_of_lt (hbd x hin)

theorem regInvariant_step (st : RegistryState) (op : RegOp)
    (hinv : RegInvariant st) : RegInvariant (regStep st op).1 := by
  cases op with
  | createModel ctorOk => exact regInvariant_createModel st ctorOk hinv
  | createModelFromAsset a b c =>
    by_cases hcopy : copyFileToInternalStorageIfNeeded a b = true
    · have heq : (regStep st (RegOp.createModelFromAsset a b c)).1 =
          (createModel st c).1 := by
        simp [regStep, createModelFromAsset, hcopy]
      rw [heq]
      exact regInvariant_createModel st c hinv
    · simp only [regStep, createModelFromAsset, hcopy, if_false]
      exact hinv
  | releaseModel h' =>
    obtain ⟨hnd, hbd⟩ := hinv
    by_cases hin : h' ∈ st.modelMap
    · simp only [regStep, releaseModel, hin, if_pos]
      exact ⟨hnd.erase h', fun x hx => hbd x (List.mem_of_mem_erase hx)⟩
    · simp only [regStep, releaseModel, hin, if_neg, not_false_iff]
      exact ⟨hnd, hbd⟩

theorem nextHandle_mono_step (st : RegistryState) (op : RegOp) :
    st.nextHandle ≤ (regStep st op).1.nextHandle := by
  cases op with
  | createModel ctorOk => cases ctorOk <;> exact Nat.le_succ _
  | createModelFromAsset a b c =>
    by_cases hcopy : copyFileToInternalStorageIfNeeded a b = true
    · cases c <;> simp [regStep, createModelFromAsset, hcopy, createModel]
    · simp [regStep, createModelFromAsset, hcopy]
  | releaseModel h' =>
    by_cases hin : h' ∈ st.modelMap <;> simp [regStep, releaseModel, hin]

theorem nextHandle_mono_run (ops : List RegOp) :
    ∀ st : RegistryState, st.nextHandle ≤ (regRun st ops).nextHandle := by
  induction ops with
  | nil => intro st; exact Nat.le_refl _
  | cons op rest ih =>
    intro st
    exact Nat.le_trans (nextHandle_mono_step st op) (ih (regStep st op).1)

/-- A step that resolves with a handle is a successful create: the handle is
the pre-state's `nextHandle` and the counter advances by one. -/
theorem resolvedHandle_eq (st : RegistryState) (op : RegOp) (h : Nat)
    (hres : (regStep st op).2 = .resolvedHandle h) :
    h = st.nextHandle ∧ (regStep st op).1.nextHandle = st.nextHandle + 1 := by
  cases op with
  | createModel ctorOk =>
    cases ctorOk with
    | true =>
      refine ⟨?_, by simp [regStep, createModel]⟩
      simp only [regStep, createModel, if_true] at hres
      simp at hres
      exact hres.symm
    | false => simp [regStep, createModel] at hres
  | createModelFromAsset a b c =>
    by_cases hcopy : copyFileToInternalStorageIfNeeded a b = true
    · cases c with
      | true =>
        refine ⟨?_, by simp [regStep, createModelFromAsset, hcopy, createModel]⟩
        simp [regStep, createModelFromAsset, hcopy, createModel] at hres
        exact hres.symm
      | false => simp [regStep, createModelFromAsset, hcopy, createModel] at hres
    · simp [regStep, createModelFromAsset, hcopy] at hres
  | releaseModel h' =>
    by_cases hin : h' ∈ st.modelMap <;> simp [regStep, releaseModel, hin] at hres

end AndroidModule

namespace IosModule

/-- `createModel` (ios/LlmInferenceModule.swift lines 16-46): `let handle =
nextHandle; nextHandle += 1` run before the do-block, so the counter advances
even when construction throws; failure code is CREATE_FAILED. -/
def createModel (st : RegistryState) (ctorOk : Bool) : RegistryState × RegResult :=
  let handle := st.nextHandle
  if ctorOk then
    (⟨st.nextHandle + 1, handle :: st.modelMap⟩, .resolvedHandle handle)
  else
    (⟨st.nextHandle + 1, st.modelMap⟩, .rejected "CREATE_FAILED")

/-- `createModelFromAsset` (lines 48-67): the bundle lookup guard rejects with
ASSET_NOT_FOUND and returns before `createModel` is entered, leaving the
counter untouched. -/
def createModelFromAsset (st : RegistryState) (assetInBundle ctorOk : Bool) :
    RegistryState × RegResult :=
  if assetInBundle then createModel st ctorOk
  else (st, .rejected "ASSET_NOT_FOUND")

/-- `releaseModel` (lines 69-76): `removeValue(forKey:)` plus `close()` and
`resolve(true)` when present, otherwise INVALID_HANDLE. -/
def releaseModel (st : RegistryState) (h : Nat) : RegistryState × RegResult :=
  if h ∈ st.modelMap then
    (⟨st.nextHandle, st.modelMap.erase h⟩, .resolvedBool true)
  else
    (st, .rejected "INVALID_HANDLE")

end IosModule

/-- C7.  `releaseModel` succeeds -- removing the handle from the map and
resolving `true` -- exactly when the handle is currently in the registry, and
rejects with INVALID_HANDLE when it is unknown or already released; on any
invariant-satisfying state, after a successful release of a handle, no
sequence of further operations can make a second release of that handle
succeed.  The iOS implementation behaves identically. -/
theorem release_model_exactly_once :
    (∀ (st : RegistryState) (h : Nat),
      (h ∈ st.modelMap →
        AndroidModule.releaseModel st h =
          (⟨st.nextHandle, st.modelMap.erase h⟩, .resolvedBool true)) ∧
      (h ∉ st.modelMap →
        AndroidModule.releaseModel st h = (st, .rejected "INVALID_HANDLE")) ∧
      IosModule.releaseModel st h = AndroidModule.releaseModel st h) ∧
    (∀ (st : RegistryState) (h : Nat) (ops : List AndroidModule.RegOp),
      AndroidModule.RegInvariant st → h ∈ st.modelMap →
      (AndroidModule.releaseModel
        (AndroidModule.regRun (AndroidModule.releaseModel st h).1 ops) h).2 =
        .rejected "INVALID_HANDLE") := by
  constructor
  · intro st h
    refine ⟨fun hin => ?_, fun hout => ?_, rfl⟩
    · simp [AndroidModule.releaseModel, hin]
    · simp [AndroidModule.releaseModel, hout]
  · intro st h ops hinv hin
    have hst1 : (AndroidModule.releaseModel st h).1 =
        ⟨st.nextHandle, st.modelMap.erase h⟩ := by
      simp [AndroidModule.releaseModel, hin]
    have hretired : AndroidModule.HandleRetired h (AndroidModule.releaseModel st h).1 := by
      rw [hst1]
      exact ⟨hinv.1.not_mem_erase, hinv.2 h hin⟩
    have hafter := AndroidModule.handleRetired_run h ops _ hretired
    set Y := (AndroidModule.releaseModel st h).1 with hY
    simp only [AndroidModule.releaseModel]
    rw [if_neg hafter.1]

/-- Witness for `release_model_exactly_once`: in the registry `⟨2, [1]⟩`
(one model, handle 1), releasing handle 1 succeeds, and releasing it again
after any of the runs below -- here an interleaved create -- rejects with
INVALID_HANDLE. -/
theorem release_model_exactly_once_witness :
    AndroidModule.releaseModel ⟨2, [1]⟩ 1 = (⟨2, []⟩, .resolvedBool true) ∧
    (AndroidModule.releaseModel
      (AndroidModule.regRun (AndroidModule.releaseModel ⟨2, [1]⟩ 1).1
        [AndroidModule.RegOp.createModel true]) 1).2 = .rejected "INVALID_HANDLE" :=
  ⟨(release_model_exactly_once.1 ⟨2, [1]⟩ 1).1 (by decide),
   release_model_exactly_once.2 ⟨2, [1]⟩ 1 [AndroidModule.RegOp.createModel true]
     ⟨by decide, by decide⟩ (by decide)⟩

/-- C8 counterexample.  On Android (`unnamed/part_002`), a
`createModelFromAsset` call whose asset is absent (and not previously
materialized) is rejected with the very same "Model Creation Failed" code that
a model-construction (ModelLoadError) failure produces -- the two failures are
not distinguished, contrary to the claim. -/
theorem asset_not_found_claim_counterexample :
    (AndroidModule.createModelFromAsset ⟨1, []⟩ false false true).2 =
      .rejected "Model Creation Failed" ∧
    (AndroidModule.createModel ⟨1, []⟩ false).2 =
      .rejected "Model Creation Failed" := by
  exact ⟨rfl, rfl⟩

/-- C8 (amended).  A `createModelFromAsset` call whose asset name is absent
from the bundle and has no previously materialized copy fails without creating
any registry entry on both platforms; on iOS the rejection code ASSET_NOT_FOUND
is distinct from the CREATE_FAILED code of construction failures, while on
Android the rejection reuses the same "Model Creation Failed" code as
construction failures (distinguished only by the message); additionally, on
Android a stale materialized copy bypasses the bundle check entirely. -/
theorem asset_not_found_handling (st : RegistryState) (ctorOk : Bool) :
    AndroidModule.createModelFromAsset st false false ctorOk =
      (st, .rejected "Model Creation Failed") ∧
    (AndroidModule.createModel st false).2 = .rejected "Model Creation Failed" ∧
    IosModule.createModelFromAsset st false ctorOk = (st, .rejected "ASSET_NOT_FOUND") ∧
    (IosModule.createModel st false).2 = .rejected "CREATE_FAILED" ∧
    "ASSET_NOT_FOUND" ≠ "CREATE_FAILED" ∧
    AndroidModule.createModelFromAsset st true false ctorOk =
      AndroidModule.createModel st ctorOk := by
  refine ⟨rfl, rfl, rfl, rfl, by decide, ?_⟩
  simp [AndroidModule.createModelFromAsset, AndroidModule.copyFileToInternalStorageIfNeeded]

/-- C9 counterexample.  A `createModelFromAsset` attempt whose asset
resolution fails does not increment the handle counter: from `nextHandle = 5`
the counter is still 5 afterwards, so not every create attempt increments the
counter. -/
theorem handle_counter_claim_counterexample :
    AndroidModule.createModelFromAsset ⟨5, []⟩ false false true =
      (⟨5, []⟩, .rejected "Model Creation Failed") ∧
    (AndroidModule.createModelFromAsset ⟨5, []⟩ false false true).1.nextHandle = 5 := by
  exact ⟨rfl, rfl⟩

/-- C9 (amended).  Every `createModel` attempt increments the handle counter
exactly once even when model construction fails (the increment precedes the
constructor call); a `createModelFromAsset` attempt increments the counter
exactly once when the copy/lookup step succeeds but leaves it untouched when
asset resolution fails; handles returned by successful creates are strictly
increasing (hence not necessarily consecutive); and the handle number of a
create whose construction failed is permanently skipped -- it is never in the
registry map after any sequence of further operations.  The iOS `createModel`
allocates identically. -/
theorem handle_counter_allocation :
    (∀ (st : RegistryState) (ok : Bool),
      (AndroidModule.createModel st ok).1.nextHandle = st.nextHandle + 1 ∧
      (IosModule.createModel st ok).1.nextHandle = st.nextHandle + 1) ∧
    (∀ (st : RegistryState) (a b ok : Bool),
      AndroidModule.copyFileToInternalStorageIfNeeded a b = true →
      (AndroidModule.createModelFromAsset st a b ok).1.nextHandle = st.nextHandle + 1) ∧
    (∀ (st : RegistryState) (ok : Bool),
      (AndroidModule.createModelFromAsset st false false ok).1.nextHandle = st.nextHandle) ∧
    (∀ (st : RegistryState) (op₁ : AndroidModule.RegOp) (ops : List AndroidModule.RegOp)
        (op₂ : AndroidModule.RegOp) (h₁ h₂ : Nat),
      (AndroidModule.regStep st op₁).2 = .resolvedHandle h₁ →
      (AndroidModule.regStep
        (AndroidModule.regRun (AndroidModule.regStep st op₁).1 ops) op₂).2 =
        .resolvedHandle h₂ →
      h₁ < h₂) ∧
    (∀ (st : RegistryState) (ops : List AndroidModule.RegOp),
      AndroidModule.RegInvariant st →
      st.nextHandle ∉
        (AndroidModule.regRun (AndroidModule.createModel st false).1 ops).modelMap) := by
  refine ⟨?_, ?_, ?_, ?_, ?_⟩
  · intro st ok
    cases ok <;> exact ⟨rfl, rfl⟩
  · intro st a b ok hcopy
    cases ok <;>
      simp [AndroidModule.createModelFromAsset, hcopy, AndroidModule.createModel]
  · intro st ok
    rfl
  · intro st op₁ ops op₂ h₁ h₂ hres₁ hres₂
    obtain ⟨hh₁, hnext₁⟩ := AndroidModule.resolvedHandle_eq st op₁ h₁ hres₁
    obtain ⟨hh₂, _⟩ := AndroidModule.resolvedHandle_eq _ op₂ h₂ hres₂
    have hmono := AndroidModule.nextHandle_mono_run ops (AndroidModule.regStep st op₁).1
    rw [hh₁, hh₂]
    calc st.nextHandle < st.nextHandle + 1 := Nat.lt_succ_self _
      _ = (AndroidModule.regStep st op₁).1.nextHandle := hnext₁.symm
      _ ≤ _ := hmono
  · intro st ops hinv
    have hretired : AndroidModule.HandleRetired st.nextHandle
        (AndroidModule.createModel st false).1 := by
      refine ⟨fun hmem => ?_, Nat.lt_succ_self _⟩
      exact absurd (hinv.2 _ hmem) (Nat.lt_irrefl _)
    have h := AndroidModule.handleRetired_run st.nextHandle ops _ hretired
    have heq : AndroidModule.regRun (AndroidModule.createModel st false).1 ops =
        AndroidModule.regRun
          (AndroidModule.regStep st (AndroidModule.RegOp.createModel false)).1 ops := rfl
    exact h.1

/-- Witness for `handle_counter_allocation`: from `⟨1, []⟩`, a failed
`createModel` advances the counter to 2; a failed asset create leaves it at 1;
a successful create after a failed one returns handle 2 > handle 1 of an
earlier success; and the skipped handle 1 of a failed create never appears in
the map after a further successful create. -/
theorem handle_counter_allocation_witness :
    (AndroidModule.createModel ⟨1, []⟩ false).1.nextHandle = 2 ∧
    (AndroidModule.createModelFromAsset ⟨1, []⟩ true false true).1.nextHandle = 2 ∧
    (AndroidModule.createModelFromAsset ⟨1, []⟩ false false true).1.nextHandle = 1 ∧
    (1 : Nat) < 2 ∧
    (1 : Nat) ∉
      (AndroidModule.regRun (AndroidModule.createModel ⟨1, []⟩ false).1
        [AndroidModule.RegOp.createModel true]).modelMap :=
  ⟨((handle_counter_allocation.1 ⟨1, []⟩ false).1),
   handle_counter_allocation.2.1 ⟨1, []⟩ true false true (by decide),
   handle_counter_allocation.2.2.1 ⟨1, []⟩ true,
   handle_counter_allocation.2.2.2.1 ⟨1, []⟩ (AndroidModule.RegOp.createModel true) []
     (AndroidModule.RegOp.createModel true) 1 2 (by decide) (by decide),
   handle_counter_allocation.2.2.2.2 ⟨1, []⟩ [AndroidModule.RegOp.createModel true]
     ⟨by decide, by decide⟩⟩

/-! ## Client binding

From `src/llmInference.ts`.  The `useLlmInference` hook creates a model when
its configuration's storage key is non-empty, and each `generateResponse` /
`generateResponseWithImage` call allocates a request id, subscribes partial
and error listeners, awaits the native call, and removes the listeners in a
`finally` block. -/

/-- Payload of an `onPartialResponse` event. -/
structure PartialEv where
  handle : Nat
  requestId : Nat
  response : String
deriving DecidableEq, Repr

/-- Payload of an `onErrorResponse` event. -/
structure ErrorEv where
  handle : Nat
  requestId : Nat
  error : String
deriving DecidableEq, Repr

/-- The guard inside the `onPartialResponse` listener registered by
`generateResponse` (llmInference.ts lines 162-166):
`onPartial && requestId === ev.requestId && !(abortSignal?.aborted ?? false)`.
The binding's `modelHandle` is in scope in the closure but is never consulted;
it is kept as an argument here to record that fact. -/
def partialGuard (modelHandle requestId : Nat) (hasPartialCb aborted : Bool)
    (ev : PartialEv) : Bool :=
  hasPartialCb && (requestId == ev.requestId) && !aborted

/-- The guard inside the `onErrorResponse` listener (lines 175-179), same
shape as `partialGuard`. -/
def errorGuard (modelHandle requestId : Nat) (hasErrorCb aborted : Bool)
    (ev : ErrorEv) : Bool :=
  hasErrorCb && (requestId == ev.requestId) && !aborted

/-- C4 counterexample.  An `onPartialResponse` event whose handle (99) differs
from the binding's handle (1) but whose requestId matches still invokes the
caller's onPartial callback: the listener filters on requestId alone, not on
(handle, requestId). -/
theorem event_filter_claim_counterexample :
    partialGuard 1 0 true false ⟨99, 0, "chunk"⟩ = true ∧
    (⟨99, 0, "chunk"⟩ : PartialEv).handle ≠ 1 ∧
    errorGuard 1 0 true false ⟨99, 0, "boom"⟩ = true ∧
    (⟨99, 0, "boom"⟩ : ErrorEv).handle ≠ 1 := by
  exact ⟨rfl, by decide, rfl, by decide⟩

/-- C4 (amended).  The listeners registered by `generateResponse` /
`generateResponseWithImage` invoke the caller's callbacks exactly for events
whose requestId equals the requestId allocated for the call (with a callback
supplied and the abort signal unsignaled); the event's handle field plays no
role in the filter. -/
theorem event_filter_requestId_only (mh mh' rid : Nat) (cb ab : Bool)
    (pev : PartialEv) (eev : ErrorEv) :
    (partialGuard mh rid cb ab pev = true ↔
      cb = true ∧ pev.requestId = rid ∧ ab = false) ∧
    partialGuard mh rid cb ab pev = partialGuard mh' rid cb ab pev ∧
    (errorGuard mh rid cb ab eev = true ↔
      cb = true ∧ eev.requestId = rid ∧ ab = false) ∧
    errorGuard mh rid cb ab eev = errorGuard mh' rid cb ab eev := by
  refine ⟨?_, rfl, ?_, rfl⟩ <;>
    · simp only [partialGuard, errorGuard, Bool.and_eq_true, Bool.not_eq_true',
        beq_iff_eq]
      constructor
      · rintro ⟨⟨hcb, hreq⟩, hab⟩
        exact ⟨hcb, hreq.symm, hab⟩
      · rintro ⟨hcb, hreq, hab⟩
        exact ⟨⟨hcb, hreq.symm⟩, hab⟩

/-- Events which can be delivered to a pending call, each tagged with the
state of the caller's abort signal at its delivery time. -/
inductive BindingEvent where
  | partialResponse (ev : PartialEv)
  | errorResponse (ev : ErrorEv)
deriving DecidableEq, Repr

/-- Observable outcome of one `generateResponse` call (llmInference.ts lines
147-199): the onPartial and onError invocations (response/error text with
requestId), whether the two listeners were removed, and the settled value of
the caller's promise. -/
structure CallOutcome where
  partialCalls : List (String × Nat)
  errorCalls : List (String × Nat)
  listenersRemoved : Bool
  result : Except String String
deriving Repr

/-- `generateResponse` (llmInference.ts lines 147-199).  When `modelHandle` is
undefined the call throws before subscribing anything; otherwise both
listeners run for every delivered event, invoking the caller's callbacks only
when the corresponding guard passes; the `finally` block removes both
listeners, and the caller's promise settles with the native call's own
outcome -- the abort signal is never consulted for the final settlement. -/
def generateResponseCall (modelHandle : Option Nat) (requestId : Nat)
    (hasPartialCb hasErrorCb : Bool) (events : List (BindingEvent × Bool))
    (native : Except String String) : CallOutcome :=
  match modelHandle with
  | none => ⟨[], [], false, .error "Model handle is not defined"⟩
  | some mh =>
    { partialCalls := events.filterMap fun p =>
        match p.1 with
        | .partialResponse ev =>
          if partialGuard mh requestId hasPartialCb p.2 ev then
            some (ev.response, ev.requestId)
          else none
        | .errorResponse _ => none
      errorCalls := events.filterMap fun p =>
        match p.1 with
        | .errorResponse ev =>
          if errorGuard mh requestId hasErrorCb p.2 ev then
            some (ev.error, ev.requestId)
          else none
        | .partialResponse _ => none
      listenersRemoved := true
      result := native }

/-- C5 counterexample.  With the abort signal already signaled, a
`generateResponse` call whose native promise resolves with "Hi there!" still
resolves the caller's promise with "Hi there!": only the callbacks are
suppressed, not the final resolution.  The claim that the final
resolution/failure is suppressed is false. -/
theorem abort_suppression_claim_counterexample :
    (generateResponseCall (some 1) 0 true true
      [(.partialResponse ⟨1, 0, "Hi"⟩, true)] (.ok "Hi there!")).result =
      .ok "Hi there!" ∧
    (generateResponseCall (some 1) 0 true true
      [(.partialResponse ⟨1, 0, "Hi"⟩, true)] (.ok "Hi there!")).partialCalls = [] := by
  exact ⟨rfl, rfl⟩

/-- C5 (amended).  When the cancellation token is signaled at every event
delivery, all onPartial/onError callback invocations are suppressed while the
underlying events are still consumed and both listeners are still
unsubscribed; the final resolution or failure of the caller's promise is NOT
suppressed -- the caller's promise settles with the native call's outcome
regardless of the token. -/
theorem abort_suppresses_callbacks_not_result (mh requestId : Nat)
    (hasPartialCb hasErrorCb : Bool) (events : List (BindingEvent × Bool))
    (native : Except String String)
    (hab : ∀ p ∈ events, p.2 = true) :
    (generateResponseCall (some mh) requestId hasPartialCb hasErrorCb events
      native).partialCalls = [] ∧
    (generateResponseCall (some mh) requestId hasPartialCb hasErrorCb events
      native).errorCalls = [] ∧
    (generateResponseCall (some mh) requestId hasPartialCb hasErrorCb events
      native).listenersRemoved = true ∧
    (generateResponseCall (some mh) requestId hasPartialCb hasErrorCb events
      native).result = native := by
  refine ⟨?_, ?_, rfl, rfl⟩ <;>
    · simp only [generateResponseCall, List.filterMap_eq_nil_iff]
      intro p hp
      have := hab p hp
      cases hev : p.1 <;> simp [partialGuard, errorGuard, this]

/-- Witness for `abort_suppresses_callbacks_not_result`: a concrete call with
two events delivered after the token is signaled keeps its callbacks silent
but still resolves with the native outcome. -/
theorem abort_suppresses_callbacks_not_result_witness :
    (generateResponseCall (some 1) 0 true true
      [(.partialResponse ⟨1, 0, "Hi"⟩, true), (.errorResponse ⟨1, 0, "oops"⟩, true)]
      (.ok "final")).partialCalls = [] ∧
    (generateResponseCall (some 1) 0 true true
      [(.partialResponse ⟨1, 0, "Hi"⟩, true), (.errorResponse ⟨1, 0, "oops"⟩, true)]
      (.ok "final")).errorCalls = [] ∧
    (generateResponseCall (some 1) 0 true true
      [(.partialResponse ⟨1, 0, "Hi"⟩, true), (.errorResponse ⟨1, 0, "oops"⟩, true)]
      (.ok "final")).listenersRemoved = true ∧
    (generateResponseCall (some 1) 0 true true
      [(.partialResponse ⟨1, 0, "Hi"⟩, true), (.errorResponse ⟨1, 0, "oops"⟩, true)]
      (.ok "final")).result = .ok "final" :=
  abort_suppresses_callbacks_not_result 1 0 true true
    [(.partialResponse ⟨1, 0, "Hi"⟩, true), (.errorResponse ⟨1, 0, "oops"⟩, true)]
    (.ok "final") (by simp)

/-- Model location part of `LlmInferenceConfig` (llmInference.ts lines 64-66):
either a bundled asset name or a filesystem path. -/
inductive LlmModelLocation where
  | asset (modelName : String)
  | file (modelPath : String)
deriving DecidableEq, Repr

/-- `getConfigStorageKey` (llmInference.ts lines 75-80). -/
def getConfigStorageKey : LlmModelLocation → String
  | .asset modelName => modelName
  | .file modelPath => modelPath

/-- The create call the hook's effect would issue. -/
inductive HookAction where
  | createModelFromAsset (key : String)
  | createModel (key : String)
deriving DecidableEq, Repr

/-- The model-creation effect of `useLlmInference` (llmInference.ts lines
85-143): when `configStorageKey.length === 0` the effect returns before any
create call; otherwise it issues the create matching the storage type. -/
def effectCreateActions (loc : LlmModelLocation) : List HookAction :=
  if (getConfigStorageKey loc).length = 0 then []
  else
    match loc with
    | .asset _ => [HookAction.createModelFromAsset (getConfigStorageKey loc)]
    | .file _ => [HookAction.createModel (getConfigStorageKey loc)]

/-- `modelHandle` after the effect settles: it is only ever set by the
`.then` of a create the effect issued (line 116), so when the effect issued no
create it remains `undefined`. -/
def modelHandleAfterEffect (loc : LlmModelLocation) (createOutcome : Option Nat) :
    Option Nat :=
  match effectCreateActions loc with
  | [] => none
  | _ => createOutcome

/-- `isLoaded` (llmInference.ts line 265): `modelHandle !== undefined`. -/
def isLoaded (modelHandle : Option Nat) : Bool :=
  modelHandle.isSome

/-- C10.  For every binding configuration whose storage key is the empty
string, the hook's effect issues no create call, `modelHandle` stays
undefined so `isLoaded` is false, and every `generateResponse` /
`generateResponseWithImage` call fails immediately with the
"Model handle is not defined" error, before subscribing any listeners and
regardless of the events or native outcome. -/
theorem empty_key_never_loads (loc : LlmModelLocation)
    (hkey : (getConfigStorageKey loc).length = 0) :
    effectCreateActions loc = [] ∧
    (∀ createOutcome, modelHandleAfterEffect loc createOutcome = none) ∧
    (∀ createOutcome, isLoaded (modelHandleAfterEffect loc createOutcome) = false) ∧
    (∀ (requestId : Nat) (cb₁ cb₂ : Bool) (events : List (BindingEvent × Bool))
        (native : Except String String),
      generateResponseCall (modelHandleAfterEffect loc none) requestId cb₁ cb₂
        events native =
        ⟨[], [], false, .error "Model handle is not defined"⟩) := by
  have hacts : effectCreateActions loc = [] := by
    simp [effectCreateActions, hkey]
  have hmh : ∀ createOutcome, modelHandleAfterEffect loc createOutcome = none := by
    intro createOutcome
    simp [modelHandleAfterEffect, hacts]
  refine ⟨hacts, hmh, fun createOutcome => ?_, fun requestId cb₁ cb₂ events native => ?_⟩
  · rw [hmh createOutcome]; rfl
  · rw [hmh none]; rfl

/-- Witness for `empty_key_never_loads`: the asset configuration with empty
model name issues no create, reports not loaded, and a generate call fails
with the no-model error. -/
theorem empty_key_never_loads_witness :
    effectCreateActions (.asset "") = [] ∧
    isLoaded (modelHandleAfterEffect (.asset "") none) = false ∧
    generateResponseCall (modelHandleAfterEffect (.asset "") none) 0 true true []
      (.ok "unused") = ⟨[], [], false, .error "Model handle is not defined"⟩ :=
  ⟨(empty_key_never_loads (.asset "") (by decide)).1,
   (empty_key_never_loads (.asset "") (by decide)).2.2.1 none,
   (empty_key_never_loads (.asset "") (by decide)).2.2.2 0 true true [] (.ok "unused")⟩

end RnLlm
